import Mathlib

/-!
# vtscan: key list, key fallback loop, extraction and output

A shallow embedding of `main.go`.  The program is a single `main` function; it is
embedded as a pure function from its inputs (command line, environment, the outcome
of each HTTP request, the JSON decoder and the map iteration order of the runtime)
to the observable run: the chunks written to standard output, the requests that
were issued, and the point at which the process terminated.

Conventions.
* Go strings and byte slices are Lean `String`s.
* `flag.Parse` is the parser of the standard `flag` package on the arguments that follow
  the program name, for the three string flags that `main` declares; with the default
  flag set it ends the process itself on a help flag (status 0) and on a malformed
  command line (status 2), writing to standard error only.
* `os.Getenv` returns `""` for an unset variable, so the environment is three strings.
* `http.Get` followed by `ioutil.ReadAll` is an oracle giving the `Outcome` of the
  `i`-th request; `ioutil.ReadAll` returns a non-nil slice on success, so a body that
  was read is never `nil`, and `resultBody == nil` is `Option.none`.
* `json.Unmarshal` is an oracle returning a `VTResponse` or an error text.
* `map[string]bool` is the list of its keys in first-insertion order; the order in
  which `range` visits the keys is an oracle `rangeOrder`.
-/

namespace VTScan

/-! ## Data model -/

/-- Dynamically typed JSON element, the Go `interface{}` produced by `encoding/json`.
The payload of a number is never inspected by the program. -/
inductive Value where
  | null
  | bool (b : Bool)
  | number (n : Int)
  | str (s : String)
  | array (xs : List Value)
  | object (fields : List (String × Value))

/-- The type assertion `v.(string)`. -/
def Value.asString : Value → Option String
  | .str s => some s
  | _ => none

/-- The relevant parts of the API response (`type VTResponse struct`).  A field that is
absent from the JSON text is the nil slice, which is the empty list. -/
structure VTResponse where
  Subdomains : List String
  UndetectedUrls : List (List Value)

/-- The values of the command-line flags `-d`, `-k`, `-m`. -/
structure Args where
  domain : String
  apiKeyFlag : String
  mode : String
deriving DecidableEq

/-- The three environment variables read with `os.Getenv`. -/
structure Environ where
  VT_API_KEY : String
  VT_API_KEY2 : String
  VT_API_KEY3 : String

/-- A GET request to the fixed endpoint, identified by its two query parameters. -/
structure Request where
  apikey : String
  domain : String
deriving DecidableEq

/-- What happens to one request: `http.Get` fails, or `ioutil.ReadAll` fails, or a
status code and a full body are received. -/
inductive Outcome where
  | transportError (err : String)
  | readError (err : String)
  | response (statusCode : Int) (body : String)
deriving DecidableEq

/-- The point at which the process terminates: the two exits inside `flag.Parse` (help
requested, malformed command line), one constructor per `os.Exit(1)` call of `main`, in
source order, and `success` for returning from `main`. -/
inductive Exit where
  | flagHelp
  | flagError
  | missingDomain
  | missingMode
  | invalidMode
  | noKey
  | unexpectedStatus
  | allKeysFailed
  | decodeError
  | success
deriving DecidableEq

/-- Process exit status: `flag.Parse` exits with 0 after a help flag and with 2 on a
malformed command line, every `os.Exit` call of `main` passes 1, returning from `main`
gives 0. -/
def Exit.code : Exit → Nat
  | .success => 0
  | .flagHelp => 0
  | .flagError => 2
  | _ => 1

/-- The observable behaviour of one execution. -/
structure Run where
  stdout : List String
  requests : List Request
  exit : Exit

/-- The text on standard output: the written chunks, concatenated. -/
def Run.text (r : Run) : String := String.join r.stdout

/-- The exit status of a run. -/
def Run.exitCode (r : Run) : Nat := r.exit.code

/-! ## Command line (lines 21-25) -/

/-- The flag values before parsing: the defaults passed to `flag.String`. -/
def defaults : Args := ⟨"", "", ""⟩

/-- How `flag.Parse` ends: all flags parsed, help requested, or a malformed command line. -/
inductive ParseStatus where
  | parsed
  | help
  | failed
deriving DecidableEq

/-- The flag values when `flag.Parse` ends, and how it ended. -/
structure FlagState where
  args : Args
  status : ParseStatus
deriving DecidableEq

/-- The text up to the first `=`, and the text after it when there is one. -/
def cutAtEquals : List Char → List Char × Option (List Char)
  | [] => ([], none)
  | c :: cs =>
    if c = '=' then ([], some cs)
    else ((c :: (cutAtEquals cs).1), (cutAtEquals cs).2)

/-- A flag `name=value` split at its first `=`; an `=` in first position is not looked
at (the scan starts at the second character). -/
def splitName : List Char → List Char × Option (List Char)
  | [] => ([], none)
  | c :: cs => (c :: (cutAtEquals cs).1, (cutAtEquals cs).2)

/-- The flags declared by `main`: `d`, `k` and `m`. -/
def isDefined (name : List Char) : Bool :=
  name = ['d'] ∨ name = ['k'] ∨ name = ['m']

/-- Storing a value into the variable of a declared flag. -/
def setFlag (vals : Args) (name : List Char) (value : String) : Args :=
  if name = ['d'] then ⟨value, vals.apiKeyFlag, vals.mode⟩
  else if name = ['k'] then ⟨vals.domain, value, vals.mode⟩
  else if name = ['m'] then ⟨vals.domain, vals.apiKeyFlag, value⟩
  else vals

/-- What the parser makes of the first remaining argument `s`: not a flag (parsing
stops), a flag that was set (with or without consuming the next argument as its value),
a help request, or an error. -/
inductive Parsed where
  | notFlag
  | flag (vals : Args) (usedNext : Bool)
  | help
  | failed

/-- One step of the parser on the argument `s`, `next` being the argument after it.  An
argument shorter than two characters or not starting with `-` is not a flag, nor is
`--`; one or two dashes introduce a name, which may not be empty nor start with `-` or
`=`; an undeclared name is a help request when it is `help` or `h` and an error
otherwise; a declared flag takes its value after `=` or else from the next argument, and
it is an error when there is neither. -/
def parseOne (vals : Args) (s : String) (next : Option String) : Parsed :=
  match s.data with
  | '-' :: c :: cs =>
    if c = '-' ∧ cs = [] then .notFlag
    else if (if c = '-' then cs else c :: cs) = []
        ∨ (if c = '-' then cs else c :: cs).head? = some '-'
        ∨ (if c = '-' then cs else c :: cs).head? = some '=' then
      .failed
    else if isDefined (splitName (if c = '-' then cs else c :: cs)).1 = true then
      match (splitName (if c = '-' then cs else c :: cs)).2, next with
      | some value, _ =>
        .flag (setFlag vals (splitName (if c = '-' then cs else c :: cs)).1 ⟨value⟩) false
      | none, some value =>
        .flag (setFlag vals (splitName (if c = '-' then cs else c :: cs)).1 value) true
      | none, none => .failed
    else if (splitName (if c = '-' then cs else c :: cs)).1 = ['h', 'e', 'l', 'p']
        ∨ (splitName (if c = '-' then cs else c :: cs)).1 = ['h'] then
      .help
    else .failed
  | _ => .notFlag

/-- The call `flag.Parse()`: the parser steps are repeated until an argument is not a
flag, the arguments are used up, help is requested or an error occurs. -/
def parseFlags (vals : Args) : List String → FlagState
  | [] => ⟨vals, .parsed⟩
  | [s] =>
    match parseOne vals s none with
    | .notFlag => ⟨vals, .parsed⟩
    | .flag vals2 _ => ⟨vals2, .parsed⟩
    | .help => ⟨vals, .help⟩
    | .failed => ⟨vals, .failed⟩
  | s :: next :: rest =>
    match parseOne vals s (some next) with
    | .notFlag => ⟨vals, .parsed⟩
    | .flag vals2 false => parseFlags vals2 (next :: rest)
    | .flag vals2 true => parseFlags vals2 rest
    | .help => ⟨vals, .help⟩
    | .failed => ⟨vals, .failed⟩

/-! ## Key list (lines 40-63) -/

/-- The key list built from the `-k` flag and the environment; `none` when the program
exits because no first key is available. -/
def buildKeys (apiKeyFlag : String) (env : Environ) : Option (List String) :=
  if apiKeyFlag ≠ "" then
    let keys := [apiKeyFlag]
    let keys := if env.VT_API_KEY2 ≠ "" then keys ++ [env.VT_API_KEY2] else keys
    let keys := if env.VT_API_KEY3 ≠ "" then keys ++ [env.VT_API_KEY3] else keys
    some keys
  else
    if env.VT_API_KEY = "" then none
    else
      let keys := [env.VT_API_KEY]
      let keys := if env.VT_API_KEY2 ≠ "" then keys ++ [env.VT_API_KEY2] else keys
      let keys := if env.VT_API_KEY3 ≠ "" then keys ++ [env.VT_API_KEY3] else keys
      some keys

/-! ## Key fallback loop (lines 68-100) -/

/-- Lower-casing of one rune as `strings.ToLower` does it on the letters `A` to `Z`;
every other rune is kept.  (Go also lower-cases capitals outside ASCII; none of them
becomes a letter of the word `quota`, the only text the result is searched for.) -/
def toLowerRune (c : Char) : Char :=
  if 65 ≤ c.toNat ∧ c.toNat ≤ 90 then Char.ofNat (c.toNat + 32) else c

/-- `strings.ToLower`. -/
def toLower (s : String) : String := ⟨s.data.map toLowerRune⟩

/-- Whether `sub` occurs in `s` at some position (on character lists). -/
def containsChars : List Char → List Char → Bool
  | [], sub => sub.isPrefixOf []
  | c :: cs, sub => sub.isPrefixOf (c :: cs) || containsChars cs sub

/-- `strings.Contains`. -/
def contains (s substr : String) : Bool := containsChars s.data substr.data

/-- The effect of one iteration of the loop body. -/
inductive Step where
  | next (log : String)
  | done (body : String)
  | fatal (log : String)
deriving DecidableEq

/-- One iteration of the loop body for `key`, given the outcome of its request. -/
def attempt (key : String) : Outcome → Step
  | .transportError err =>
    .next ("Error making request with key " ++ key ++ ": " ++ err ++ "\n")
  | .readError err =>
    .next ("Error reading response with key " ++ key ++ ": " ++ err ++ "\n")
  | .response statusCode body =>
    if statusCode ≠ 200 then
      if statusCode = 204 ∨ contains (toLower body) "quota" = true then
        .next ("Quota exceeded for key " ++ key ++ ". Trying next key if available...\n")
      else
        .fatal ("Unexpected error (status " ++ toString statusCode ++ ") using key " ++ key
          ++ ": " ++ body ++ "\n")
    else
      .done body

/-- How the loop is left: `exited` is the `os.Exit(1)` inside the loop; otherwise control
reaches the test `resultBody == nil` with the given `resultBody`. -/
inductive LoopEnd where
  | exited
  | completed (resultBody : Option String)
deriving DecidableEq

/-- What the loop did: the chunks it printed, the requests it issued, how it ended. -/
structure LoopOut where
  stdout : List String
  requests : List Request
  finish : LoopEnd

/-- The loop `for _, key := range keys`; `i` is the number of requests issued before. -/
def keyLoop (net : Nat → Request → Outcome) (domain : String) : Nat → List String → LoopOut
  | _, [] => ⟨[], [], .completed none⟩
  | i, key :: rest =>
    match attempt key (net i ⟨key, domain⟩) with
    | .next log =>
      ⟨log :: (keyLoop net domain (i + 1) rest).stdout,
       ⟨key, domain⟩ :: (keyLoop net domain (i + 1) rest).requests,
       (keyLoop net domain (i + 1) rest).finish⟩
    | .done body => ⟨[], [⟨key, domain⟩], .completed (some body)⟩
    | .fatal log => ⟨[log], [⟨key, domain⟩], .exited⟩

/-! ## Extraction and output (lines 115-139) -/

/-- The assignment `m[k] = true` on a map given by its keys in first-insertion order. -/
def setTrue (m : List String) (k : String) : List String :=
  if k ∈ m then m else m ++ [k]

/-- The loop over `vtResp.UndetectedUrls`. -/
def extractUrls (entries : List (List Value)) (m : List String) : List String :=
  entries.foldl
    (fun m entry =>
      match entry with
      | [] => m
      | v :: _ =>
        match v.asString with
        | some urlStr => setTrue m urlStr
        | none => m)
    m

/-- The loop over `vtResp.Subdomains`. -/
def extractDomains (subdomains : List String) (m : List String) : List String :=
  subdomains.foldl setTrue m

/-- The map `uniqueResults` after the `switch *mode`. -/
def uniqueResults (mode : String) (vtResp : VTResponse) : List String :=
  if mode = "urls" then extractUrls vtResp.UndetectedUrls []
  else if mode = "domains" then extractDomains vtResp.Subdomains []
  else []

/-- The lines printed by the final loop, in the order the runtime visits the map. -/
def printedLines (rangeOrder : List String → List String) (mode : String)
    (vtResp : VTResponse) : List String :=
  rangeOrder (uniqueResults mode vtResp)

/-- A line as written by `fmt.Println`. -/
def println (s : String) : String := s ++ "\n"

/-! ## The program -/

/-- The function `main`, on the command-line arguments `argv` that follow the program
name. -/
def main (argv : List String) (env : Environ) (net : Nat → Request → Outcome)
    (unmarshal : String → Except String VTResponse)
    (rangeOrder : List String → List String) : Run :=
  match parseFlags defaults argv with
  | ⟨_, .help⟩ => ⟨[], [], .flagHelp⟩
  | ⟨_, .failed⟩ => ⟨[], [], .flagError⟩
  | ⟨args, .parsed⟩ =>
    if args.domain = "" then
      ⟨[println "Error: Domain (-d) is required."], [], .missingDomain⟩
    else if args.mode = "" then
      ⟨[println "Error: Mode (-m) is required and must be either 'domains' or 'urls'."], [],
        .missingMode⟩
    else if args.mode ≠ "domains" ∧ args.mode ≠ "urls" then
      ⟨[println "Error: Mode (-m) must be either 'domains' or 'urls'."], [], .invalidMode⟩
    else
      match buildKeys args.apiKeyFlag env with
      | none =>
        ⟨[println
            "Error: No API key provided. Use -k flag or set VT_API_KEY in the environment."],
          [], .noKey⟩
      | some keys =>
        match (keyLoop net args.domain 0 keys).finish with
        | .exited =>
          ⟨(keyLoop net args.domain 0 keys).stdout, (keyLoop net args.domain 0 keys).requests,
            .unexpectedStatus⟩
        | .completed none =>
          ⟨(keyLoop net args.domain 0 keys).stdout
              ++ [println "Error: All provided API keys have exceeded quota or failed."],
            (keyLoop net args.domain 0 keys).requests, .allKeysFailed⟩
        | .completed (some resultBody) =>
          match unmarshal resultBody with
          | .error err =>
            ⟨(keyLoop net args.domain 0 keys).stdout
                ++ ["Error unmarshalling JSON: " ++ err ++ "\n"],
              (keyLoop net args.domain 0 keys).requests, .decodeError⟩
          | .ok vtResp =>
            ⟨(keyLoop net args.domain 0 keys).stdout
                ++ (printedLines rangeOrder args.mode vtResp).map println,
              (keyLoop net args.domain 0 keys).requests, .success⟩

/-! ## Notions used in the statements -/

/-- The entry contributes the URL `s`: it is non-empty and its first element is the
string `s`. -/
def FirstString (entry : List Value) (s : String) : Prop :=
  ∃ rest, entry = Value.str s :: rest

/-- The body contains the substring `quota` in any letter case: five consecutive
characters that are `q`, `u`, `o`, `t`, `a`, each in lower or upper case. -/
def QuotaAnyCase (body : String) : Prop :=
  ∃ (before after : List Char) (c1 c2 c3 c4 c5 : Char),
    body.data = before ++ [c1, c2, c3, c4, c5] ++ after
      ∧ (c1 = 'q' ∨ c1 = 'Q') ∧ (c2 = 'u' ∨ c2 = 'U') ∧ (c3 = 'o' ∨ c3 = 'O')
      ∧ (c4 = 't' ∨ c4 = 'T') ∧ (c5 = 'a' ∨ c5 = 'A')

/-- A transient key error: transport failure, body-read failure, status 204, or a status
other than 200 whose body contains `quota` in any letter case. -/
def Transient : Outcome → Prop
  | .transportError _ => True
  | .readError _ => True
  | .response statusCode body => statusCode = 204 ∨ (statusCode ≠ 200 ∧ QuotaAnyCase body)

/-- The diagnostic written for `key` when its outcome is a transient key error
(the three `Printf` calls that precede a `continue`). -/
def skipLog (key : String) : Outcome → String
  | .transportError err => "Error making request with key " ++ key ++ ": " ++ err ++ "\n"
  | .readError err => "Error reading response with key " ++ key ++ ": " ++ err ++ "\n"
  | .response _ _ => "Quota exceeded for key " ++ key ++ ". Trying next key if available...\n"

/-- The diagnostics for the keys of `keys`, in order, when all of them are skipped; `i` is
the number of requests issued before. -/
def skipLogs (net : Nat → Request → Outcome) (domain : String) : Nat → List String → List String
  | _, [] => []
  | i, key :: rest => skipLog key (net i ⟨key, domain⟩) :: skipLogs net domain (i + 1) rest

/-- The diagnostic written before `os.Exit(1)` for an unexpected status. -/
def fatalLog (key : String) (statusCode : Int) (body : String) : String :=
  "Unexpected error (status " ++ toString statusCode ++ ") using key " ++ key ++ ": " ++ body
    ++ "\n"

/-- The request issued for `key`. -/
def requestFor (domain : String) (key : String) : Request := ⟨key, domain⟩

/-! ## Command line -/

theorem parseOne_eq_form (vals : Args) (name : Char) (v : String) (next : Option String)
    (h : isDefined [name] = true) :
    parseOne vals ⟨'-' :: name :: '=' :: v.data⟩ next = .flag (setFlag vals [name] v) false := by
  have hn : name ≠ '-' ∧ name ≠ '=' := by
    simp only [isDefined, List.cons.injEq, and_true, decide_eq_true_eq,
      Bool.decide_or, Bool.or_eq_true] at h
    rcases h with h | h | h <;> subst h <;> decide
  simp [parseOne, hn.1, hn.2, splitName, cutAtEquals, h]

/-- Every combination of flag values is the result of parsing some command line, here
the one that gives the three flags in the form `-name=value`. -/
theorem parseFlags_reach (args : Args) :
    parseFlags defaults
        [⟨'-' :: 'd' :: '=' :: args.domain.data⟩,
          ⟨'-' :: 'k' :: '=' :: args.apiKeyFlag.data⟩,
          ⟨'-' :: 'm' :: '=' :: args.mode.data⟩]
      = ⟨args, .parsed⟩ := by
  simp only [parseFlags, parseOne_eq_form _ 'd' _ _ (by decide),
    parseOne_eq_form _ 'k' _ _ (by decide), parseOne_eq_form _ 'm' _ _ (by decide)]
  simp [setFlag, defaults]

/-! ## Key list and configuration errors -/

/-- C5: when the flag `-k` or the primary variable is non-empty, the key list is the
first key (the flag when non-empty, else the primary variable) followed by the second
secondary variable when non-empty, then by the third when non-empty; its first element
is therefore never taken from a secondary variable, and with a non-empty flag the
primary variable has no influence on the list. -/
theorem buildKeys_spec (k : String) (env : Environ) (h : k ≠ "" ∨ env.VT_API_KEY ≠ "") :
    buildKeys k env
        = some ([if k ≠ "" then k else env.VT_API_KEY]
            ++ (if env.VT_API_KEY2 ≠ "" then [env.VT_API_KEY2] else [])
            ++ (if env.VT_API_KEY3 ≠ "" then [env.VT_API_KEY3] else []))
      ∧ (∀ keys, buildKeys k env = some keys →
          keys.head? = some (if k ≠ "" then k else env.VT_API_KEY))
      ∧ (k ≠ "" → ∀ e1 : String,
          buildKeys k ⟨e1, env.VT_API_KEY2, env.VT_API_KEY3⟩ = buildKeys k env) := by
  have hmain : buildKeys k env
        = some ([if k ≠ "" then k else env.VT_API_KEY]
            ++ (if env.VT_API_KEY2 ≠ "" then [env.VT_API_KEY2] else [])
            ++ (if env.VT_API_KEY3 ≠ "" then [env.VT_API_KEY3] else [])) := by
    unfold buildKeys
    by_cases hk : k = ""
    · have h1 : env.VT_API_KEY ≠ "" := by
        rcases h with h | h
        · exact absurd hk h
        · exact h
      by_cases h2 : env.VT_API_KEY2 = "" <;> by_cases h3 : env.VT_API_KEY3 = "" <;>
        simp [hk, h1, h2, h3]
    · by_cases h2 : env.VT_API_KEY2 = "" <;> by_cases h3 : env.VT_API_KEY3 = "" <;>
        simp [hk, h2, h3]
  refine ⟨hmain, ?_, ?_⟩
  · intro keys hkeys
    rw [hmain] at hkeys
    cases hkeys
    simp
  · intro hk e1
    unfold buildKeys
    simp [hk]

/-- Witness for C5: flag empty, all three variables set. -/
theorem buildKeys_spec_witness :
    buildKeys "" ⟨"p", "s2", "s3"⟩ = some ["p", "s2", "s3"] := by
  have h := (buildKeys_spec "" ⟨"p", "s2", "s3"⟩ (Or.inr (by decide))).1
  simpa using h

/-- C6, as the program behaves: when the domain flag is empty, or the mode flag is empty
or not exactly `domains` or `urls`, or both the key flag and the primary variable are
empty, no request is issued; the exit status is 1 when `flag.Parse` accepts the command
line, 0 when it ends on a help flag and 2 when it ends on a malformed command line. -/
theorem main_config_error (argv : List String) (env : Environ)
    (net : Nat → Request → Outcome) (unmarshal : String → Except String VTResponse)
    (rangeOrder : List String → List String)
    (h : (parseFlags defaults argv).args.domain = ""
      ∨ (parseFlags defaults argv).args.mode = ""
      ∨ ((parseFlags defaults argv).args.mode ≠ "domains"
          ∧ (parseFlags defaults argv).args.mode ≠ "urls")
      ∨ ((parseFlags defaults argv).args.apiKeyFlag = "" ∧ env.VT_API_KEY = "")) :
    (main argv env net unmarshal rangeOrder).requests = []
      ∧ ((parseFlags defaults argv).status = .parsed →
          (main argv env net unmarshal rangeOrder).exitCode = 1)
      ∧ ((parseFlags defaults argv).status = .help →
          (main argv env net unmarshal rangeOrder).exitCode = 0)
      ∧ ((parseFlags defaults argv).status = .failed →
          (main argv env net unmarshal rangeOrder).exitCode = 2) := by
  rcases hp : parseFlags defaults argv with ⟨args, st⟩
  rw [hp] at h
  simp only at h
  unfold main
  rw [hp]
  cases st with
  | help => simp [Run.exitCode, Exit.code]
  | failed => simp [Run.exitCode, Exit.code]
  | parsed =>
    dsimp only
    by_cases hd : args.domain = ""
    · simp [hd, Run.exitCode, Exit.code]
    by_cases hm : args.mode = ""
    · simp [hd, hm, Run.exitCode, Exit.code]
    by_cases hv : args.mode ≠ "domains" ∧ args.mode ≠ "urls"
    · rw [if_neg hd, if_neg hm, if_pos hv]
      simp [Run.exitCode, Exit.code]
    · have hk : args.apiKeyFlag = "" ∧ env.VT_API_KEY = "" := by
        rcases h with h | h | h | h
        · exact absurd h hd
        · exact absurd h hm
        · exact absurd h hv
        · exact h
      have hb : buildKeys args.apiKeyFlag env = none := by
        simp [buildKeys, hk.1, hk.2]
      rw [if_neg hd, if_neg hm, if_neg hv, hb]
      simp [Run.exitCode, Exit.code]

/-- Example for C6: a command line that parses, with a mode that is neither `domains`
nor `urls`. -/
theorem main_config_error_witness :
    (main ["-d", "example.com", "-k", "k", "-m", "Domains"] ⟨"", "", ""⟩
        (fun _ _ => .response 200 "") (fun _ => .ok ⟨[], []⟩) id).requests = []
      ∧ (main ["-d", "example.com", "-k", "k", "-m", "Domains"] ⟨"", "", ""⟩
        (fun _ _ => .response 200 "") (fun _ => .ok ⟨[], []⟩) id).exitCode = 1 := by
  have h := main_config_error ["-d", "example.com", "-k", "k", "-m", "Domains"] ⟨"", "", ""⟩
    (fun _ _ => .response 200 "") (fun _ => .ok ⟨[], []⟩) id
    (Or.inr (Or.inr (Or.inl (by decide))))
  exact ⟨h.1, h.2.1 (by decide)⟩

/-- Counterexample to C6 as stated: on the command line `-h` the domain and the mode are
empty, yet the exit status is 0, not 1; on the command line `-d` (a flag without its
value) the domain is empty and the exit status is 2. -/
theorem help_flag_exit_status :
    (parseFlags defaults ["-h"]).args.domain = ""
      ∧ (parseFlags defaults ["-h"]).args.mode = ""
      ∧ (main ["-h"] ⟨"", "", ""⟩ (fun _ _ => .response 200 "") (fun _ => .ok ⟨[], []⟩)
          id).exitCode = 0
      ∧ (main ["-h"] ⟨"", "", ""⟩ (fun _ _ => .response 200 "") (fun _ => .ok ⟨[], []⟩)
          id).exitCode ≠ 1
      ∧ (parseFlags defaults ["-d"]).args.domain = ""
      ∧ (main ["-d"] ⟨"", "", ""⟩ (fun _ _ => .response 200 "") (fun _ => .ok ⟨[], []⟩)
          id).exitCode = 2 := by
  refine ⟨?_, ?_, ?_, ?_, ?_, ?_⟩ <;> decide

/-! ## Extraction -/

theorem setTrue_nodup (m : List String) (k : String) (h : m.Nodup) : (setTrue m k).Nodup := by
  unfold setTrue
  split
  · exact h
  · rename_i hk
    rw [List.nodup_append]
    refine ⟨h, List.nodup_singleton k, ?_⟩
    intro a ha hb
    have : a = k := by simpa using hb
    exact hk (this ▸ ha)

theorem mem_setTrue (m : List String) (k s : String) : s ∈ setTrue m k ↔ s ∈ m ∨ s = k := by
  unfold setTrue
  split
  · rename_i hk
    constructor
    · exact Or.inl
    · rintro (h | h)
      · exact h
      · exact h ▸ hk
  · simp

theorem extractDomains_nodup (subs : List String) :
    ∀ m : List String, m.Nodup → (extractDomains subs m).Nodup := by
  induction subs with
  | nil => intro m h; exact h
  | cons d ds ih => intro m h; exact ih (setTrue m d) (setTrue_nodup m d h)

theorem mem_extractDomains (subs : List String) (s : String) :
    ∀ m : List String, s ∈ extractDomains subs m ↔ s ∈ m ∨ s ∈ subs := by
  induction subs with
  | nil => intro m; simp [extractDomains]
  | cons d ds ih =>
    intro m
    have h := ih (setTrue m d)
    simp only [extractDomains, List.foldl_cons] at h ⊢
    rw [h, mem_setTrue, List.mem_cons, or_assoc]

theorem extractUrls_cons (e : List Value) (es : List (List Value)) (m : List String) :
    extractUrls (e :: es) m = extractUrls es (extractUrls [e] m) := rfl

theorem extractUrls_single_nodup (e : List Value) (m : List String) (h : m.Nodup) :
    (extractUrls [e] m).Nodup := by
  cases e with
  | nil => exact h
  | cons v vs =>
    cases v <;> first | exact h | exact setTrue_nodup m _ h

theorem mem_extractUrls_single (e : List Value) (m : List String) (s : String) :
    s ∈ extractUrls [e] m ↔ s ∈ m ∨ FirstString e s := by
  cases e with
  | nil => simp [extractUrls, FirstString]
  | cons v vs =>
    cases v <;> simp [extractUrls, FirstString, Value.asString, mem_setTrue, eq_comm]

theorem extractUrls_nodup (es : List (List Value)) :
    ∀ m : List String, m.Nodup → (extractUrls es m).Nodup := by
  induction es with
  | nil => intro m h; exact h
  | cons e es ih =>
    intro m h
    rw [extractUrls_cons]
    exact ih _ (extractUrls_single_nodup e m h)

theorem mem_extractUrls (es : List (List Value)) (s : String) :
    ∀ m : List String, s ∈ extractUrls es m ↔ s ∈ m ∨ ∃ e ∈ es, FirstString e s := by
  induction es with
  | nil => intro m; simp [extractUrls]
  | cons e es ih =>
    intro m
    rw [extractUrls_cons, ih, mem_extractUrls_single, List.exists_mem_cons_iff, or_assoc]

theorem uniqueResults_nodup (mode : String) (vtResp : VTResponse) :
    (uniqueResults mode vtResp).Nodup := by
  unfold uniqueResults
  split
  · exact extractUrls_nodup _ _ List.nodup_nil
  · split
    · exact extractDomains_nodup _ _ List.nodup_nil
    · exact List.nodup_nil

/-- C3: in mode `domains` the printed lines have no duplicates, a string is printed
exactly when it is an element of `subdomains`, and `undetected_urls` has no influence;
for `a.example.com, a.example.com, b.example.com` the lines are `a.example.com` and
`b.example.com` in some order.  The runtime visits each key of the map once. -/
theorem domains_lines (rangeOrder : List String → List String)
    (hrange : ∀ m : List String, m.Nodup → (rangeOrder m).Perm m)
    (subdomains : List String) (undetected : List (List Value)) :
    (printedLines rangeOrder "domains" ⟨subdomains, undetected⟩).Nodup
      ∧ (∀ s, s ∈ printedLines rangeOrder "domains" ⟨subdomains, undetected⟩ ↔ s ∈ subdomains)
      ∧ (∀ other : List (List Value),
          printedLines rangeOrder "domains" ⟨subdomains, other⟩
            = printedLines rangeOrder "domains" ⟨subdomains, undetected⟩)
      ∧ (subdomains = ["a.example.com", "a.example.com", "b.example.com"] →
          (printedLines rangeOrder "domains" ⟨subdomains, undetected⟩).Perm
            ["a.example.com", "b.example.com"]) := by
  have hu : ∀ u : List (List Value),
      uniqueResults "domains" ⟨subdomains, u⟩ = extractDomains subdomains [] := by
    intro u
    simp [uniqueResults]
  have hnd : (extractDomains subdomains []).Nodup := extractDomains_nodup _ _ List.nodup_nil
  have hp := hrange _ hnd
  refine ⟨?_, ?_, ?_, ?_⟩
  · simp only [printedLines, hu]
    exact hp.nodup_iff.mpr hnd
  · intro s
    simp only [printedLines, hu]
    rw [hp.mem_iff, mem_extractDomains]
    simp
  · intro other
    simp only [printedLines, hu]
  · intro hs
    subst hs
    simp only [printedLines, hu]
    have he : extractDomains ["a.example.com", "a.example.com", "b.example.com"] []
        = ["a.example.com", "b.example.com"] := by decide
    rw [he] at hp
    exact hp

/-- Witness for C3: the runtime visits the map in reverse insertion order. -/
theorem domains_lines_witness :
    printedLines List.reverse "domains"
        ⟨["a.example.com", "a.example.com", "b.example.com"], [[.str "http://x"]]⟩
      = ["b.example.com", "a.example.com"]
    ∧ (printedLines List.reverse "domains"
        ⟨["a.example.com", "a.example.com", "b.example.com"], [[.str "http://x"]]⟩).Nodup :=
  ⟨by decide,
    (domains_lines List.reverse (fun m _ => List.reverse_perm m)
      ["a.example.com", "a.example.com", "b.example.com"] [[.str "http://x"]]).1⟩

/-- C4: in mode `urls` the printed lines have no duplicates, a string is printed exactly
when it is the first element of some non-empty entry of `undetected_urls` and that
element is a string, and `subdomains` has no influence; for the entries
`("http://x", 1), ("http://x", 2), (), (42)` the output is the one line `http://x`. -/
theorem urls_lines (rangeOrder : List String → List String)
    (hrange : ∀ m : List String, m.Nodup → (rangeOrder m).Perm m)
    (subdomains : List String) (undetected : List (List Value)) :
    (printedLines rangeOrder "urls" ⟨subdomains, undetected⟩).Nodup
      ∧ (∀ s, s ∈ printedLines rangeOrder "urls" ⟨subdomains, undetected⟩
          ↔ ∃ e ∈ undetected, FirstString e s)
      ∧ (∀ other : List String,
          printedLines rangeOrder "urls" ⟨other, undetected⟩
            = printedLines rangeOrder "urls" ⟨subdomains, undetected⟩)
      ∧ (undetected = [[.str "http://x", .number 1], [.str "http://x", .number 2], [],
            [.number 42]] →
          printedLines rangeOrder "urls" ⟨subdomains, undetected⟩ = ["http://x"]) := by
  have hu : ∀ d : List String,
      uniqueResults "urls" ⟨d, undetected⟩ = extractUrls undetected [] := by
    intro d
    simp [uniqueResults]
  have hnd : (extractUrls undetected []).Nodup := extractUrls_nodup _ _ List.nodup_nil
  have hp := hrange _ hnd
  refine ⟨?_, ?_, ?_, ?_⟩
  · simp only [printedLines, hu]
    exact hp.nodup_iff.mpr hnd
  · intro s
    simp only [printedLines, hu]
    rw [hp.mem_iff, mem_extractUrls]
    simp
  · intro other
    simp only [printedLines, hu]
  · intro hs
    subst hs
    simp only [printedLines, hu]
    have he : extractUrls [[.str "http://x", .number 1], [.str "http://x", .number 2], [],
        [.number 42]] [] = ["http://x"] := by decide
    rw [he] at hp
    exact List.perm_singleton.mp hp

/-- Witness for C4: the example entries, with some subdomains present. -/
theorem urls_lines_witness :
    printedLines List.reverse "urls"
        ⟨["a.example.com"], [[.str "http://x", .number 1], [.str "http://x", .number 2], [],
          [.number 42]]⟩ = ["http://x"] :=
  (urls_lines List.reverse (fun m _ => List.reverse_perm m) ["a.example.com"]
    [[.str "http://x", .number 1], [.str "http://x", .number 2], [], [.number 42]]).2.2.2 rfl

/-! ## Classification of a response -/

theorem char_eq_of_toNat_eq {c d : Char} (h : c.toNat = d.toNat) : c = d := by
  rw [← Char.ofNat_toNat c, ← Char.ofNat_toNat d, h]

theorem toNat_ofNat_small (n : Nat) (h : n < 55296) : (Char.ofNat n).toNat = n := by
  have hv : n.isValidChar := Or.inl h
  simp only [Char.ofNat, hv, Char.toNat, Char.ofNatAux, dite_true]
  simp [UInt32.toNat]

/-- Lower-casing gives the lower-case letter `x` exactly on `x` and on the character 32
code points below it. -/
theorem toLowerRune_eq_iff (c x : Char) (hx : 97 ≤ x.toNat ∧ x.toNat ≤ 122) :
    toLowerRune c = x ↔ c = x ∨ c.toNat + 32 = x.toNat := by
  unfold toLowerRune
  split
  · rename_i hc
    constructor
    · intro h
      right
      rw [← h, toNat_ofNat_small _ (by omega)]
    · rintro (h | h)
      · subst h; omega
      · apply char_eq_of_toNat_eq
        rw [toNat_ofNat_small _ (by omega)]
        exact h
  · rename_i hc
    constructor
    · exact Or.inl
    · rintro (h | h)
      · exact h
      · omega

theorem toLowerRune_eq_letter (c x X : Char) (hx : 97 ≤ x.toNat ∧ x.toNat ≤ 122)
    (hX : X.toNat + 32 = x.toNat) : toLowerRune c = x ↔ c = x ∨ c = X := by
  rw [toLowerRune_eq_iff c x hx]
  constructor
  · rintro (h | h)
    · exact Or.inl h
    · exact Or.inr (char_eq_of_toNat_eq (by omega))
  · rintro (h | h)
    · exact Or.inl h
    · subst h; exact Or.inr hX

theorem containsChars_iff (sub : List Char) :
    ∀ s : List Char,
      containsChars s sub = true ↔ ∃ before after, s = before ++ sub ++ after := by
  intro s
  induction s with
  | nil =>
    cases sub with
    | nil => simp [containsChars]
    | cons a as => simp [containsChars]
  | cons c cs ih =>
    simp only [containsChars, Bool.or_eq_true, ih, List.isPrefixOf_iff_prefix]
    constructor
    · rintro (⟨t, ht⟩ | ⟨b, a, h⟩)
      · exact ⟨[], t, by simpa using ht.symm⟩
      · exact ⟨c :: b, a, by simp [h]⟩
    · rintro ⟨b, a, h⟩
      cases b with
      | nil => exact Or.inl ⟨a, by simpa using h.symm⟩
      | cons b0 bs =>
        simp only [List.cons_append, List.cons.injEq] at h
        exact Or.inr ⟨bs, a, h.2⟩

/-- The test of the source, `strings.Contains(strings.ToLower(body), "quota")`, holds
exactly when the body contains `quota` in some letter case. -/
theorem contains_quota_iff (body : String) :
    contains (toLower body) "quota" = true ↔ QuotaAnyCase body := by
  unfold contains toLower QuotaAnyCase
  rw [containsChars_iff]
  have hq := fun c => toLowerRune_eq_letter c 'q' 'Q' (by decide) (by decide)
  have hu := fun c => toLowerRune_eq_letter c 'u' 'U' (by decide) (by decide)
  have ho := fun c => toLowerRune_eq_letter c 'o' 'O' (by decide) (by decide)
  have ht := fun c => toLowerRune_eq_letter c 't' 'T' (by decide) (by decide)
  have ha := fun c => toLowerRune_eq_letter c 'a' 'A' (by decide) (by decide)
  have hlit : "quota".data = ['q', 'u', 'o', 't', 'a'] := rfl
  rw [hlit]
  constructor
  · rintro ⟨b, a, h⟩
    simp only [List.map_eq_append_iff] at h
    obtain ⟨l1, a', h1, ⟨b', w, h2, -, hw⟩, -⟩ := h
    simp only [List.map_eq_cons_iff, List.map_eq_nil_iff] at hw
    obtain ⟨c1, r1, rfl, e1, c2, r2, rfl, e2, c3, r3, rfl, e3, c4, r4, rfl, e4, c5, r5, rfl,
      e5, rfl⟩ := hw
    refine ⟨b', a', c1, c2, c3, c4, c5, ?_, (hq c1).mp e1, (hu c2).mp e2, (ho c3).mp e3,
      (ht c4).mp e4, (ha c5).mp e5⟩
    rw [h1, h2]
  · rintro ⟨b, a, c1, c2, c3, c4, c5, h, e1, e2, e3, e4, e5⟩
    refine ⟨b.map toLowerRune, a.map toLowerRune, ?_⟩
    rw [h]
    simp only [List.map_append, List.map_cons, List.map_nil, (hq c1).mpr e1, (hu c2).mpr e2,
      (ho c3).mpr e3, (ht c4).mpr e4, (ha c5).mpr e5]

theorem attempt_of_transient (key : String) (o : Outcome) (h : Transient o) :
    attempt key o = .next (skipLog key o) := by
  cases o with
  | transportError err => rfl
  | readError err => rfl
  | response statusCode body =>
    simp only [Transient] at h
    have h200 : statusCode ≠ 200 := by
      rcases h with h | h
      · rw [h]; decide
      · exact h.1
    have hq : statusCode = 204 ∨ contains (toLower body) "quota" = true := by
      rcases h with h | h
      · exact Or.inl h
      · exact Or.inr ((contains_quota_iff body).mpr h.2)
    simp only [attempt, skipLog, if_pos h200, if_pos hq]

theorem attempt_ok (key body : String) : attempt key (.response 200 body) = .done body := by
  simp [attempt]

theorem attempt_fatal (key : String) (statusCode : Int) (body : String)
    (h200 : statusCode ≠ 200) (hq : ¬ (statusCode = 204 ∨ QuotaAnyCase body)) :
    attempt key (.response statusCode body) = .fatal (fatalLog key statusCode body) := by
  have hq' : ¬ (statusCode = 204 ∨ contains (toLower body) "quota" = true) := by
    rw [contains_quota_iff]; exact hq
  simp only [attempt, fatalLog, if_pos h200, if_neg hq']

theorem transient_of_attempt_next (key : String) (o : Outcome) (log : String)
    (h : attempt key o = .next log) : Transient o := by
  cases o with
  | transportError err => trivial
  | readError err => trivial
  | response statusCode body =>
    by_cases h200 : statusCode = 200
    · subst h200
      rw [attempt_ok] at h
      cases h
    · by_cases hq : statusCode = 204 ∨ QuotaAnyCase body
      · rcases hq with hq | hq
        · exact Or.inl hq
        · exact Or.inr ⟨h200, hq⟩
      · rw [attempt_fatal key statusCode body h200 hq] at h
        cases h

/-! ## The key fallback loop -/

theorem keyLoop_nil (net : Nat → Request → Outcome) (d : String) (i : Nat) :
    keyLoop net d i [] = ⟨[], [], .completed none⟩ := rfl

theorem keyLoop_cons_next (net : Nat → Request → Outcome) (d : String) (i : Nat)
    (key : String) (rest : List String) (log : String)
    (h : attempt key (net i ⟨key, d⟩) = .next log) :
    keyLoop net d i (key :: rest)
      = ⟨log :: (keyLoop net d (i + 1) rest).stdout,
         requestFor d key :: (keyLoop net d (i + 1) rest).requests,
         (keyLoop net d (i + 1) rest).finish⟩ := by
  rw [keyLoop, h]
  rfl

theorem keyLoop_cons_done (net : Nat → Request → Outcome) (d : String) (i : Nat)
    (key : String) (rest : List String) (body : String)
    (h : attempt key (net i ⟨key, d⟩) = .done body) :
    keyLoop net d i (key :: rest) = ⟨[], [requestFor d key], .completed (some body)⟩ := by
  rw [keyLoop, h]
  rfl

theorem keyLoop_cons_fatal (net : Nat → Request → Outcome) (d : String) (i : Nat)
    (key : String) (rest : List String) (log : String)
    (h : attempt key (net i ⟨key, d⟩) = .fatal log) :
    keyLoop net d i (key :: rest) = ⟨[log], [requestFor d key], .exited⟩ := by
  rw [keyLoop, h]
  rfl

/-- Keys whose outcomes are transient are skipped: the loop prints their diagnostics,
issues their requests and goes on with the remaining keys. -/
theorem keyLoop_skip (net : Nat → Request → Outcome) (d : String) (pre rest : List String) :
    ∀ i : Nat, (∀ j k, pre[j]? = some k → Transient (net (i + j) ⟨k, d⟩)) →
      keyLoop net d i (pre ++ rest)
        = ⟨skipLogs net d i pre ++ (keyLoop net d (i + pre.length) rest).stdout,
           pre.map (requestFor d) ++ (keyLoop net d (i + pre.length) rest).requests,
           (keyLoop net d (i + pre.length) rest).finish⟩ := by
  induction pre with
  | nil => intro i _; simp [skipLogs]
  | cons p ps ih =>
    intro i h
    have hp : Transient (net i ⟨p, d⟩) := by simpa using h 0 p (by simp)
    have hps : ∀ j k, ps[j]? = some k → Transient (net (i + 1 + j) ⟨k, d⟩) := by
      intro j k hj
      have := h (j + 1) k (by simpa using hj)
      rwa [show i + (j + 1) = i + 1 + j by omega] at this
    rw [List.cons_append, keyLoop_cons_next net d i p _ _ (attempt_of_transient p _ hp),
      ih (i + 1) hps]
    simp [skipLogs, Nat.add_assoc, Nat.add_comm 1]

/-! ## Reduction of `main` once the configuration is valid -/

theorem main_exited (argv : List String) (args : Args) (env : Environ)
    (net : Nat → Request → Outcome)
    (unmarshal : String → Except String VTResponse) (rangeOrder : List String → List String)
    (keys : List String)
    (hparse : parseFlags defaults argv = ⟨args, .parsed⟩)
    (hd : args.domain ≠ "")
    (hm : args.mode = "domains" ∨ args.mode = "urls")
    (hk : buildKeys args.apiKeyFlag env = some keys)
    (hf : (keyLoop net args.domain 0 keys).finish = .exited) :
    main argv env net unmarshal rangeOrder
      = ⟨(keyLoop net args.domain 0 keys).stdout, (keyLoop net args.domain 0 keys).requests,
          .unexpectedStatus⟩ := by
  have hm1 : args.mode ≠ "" := by rcases hm with h | h <;> rw [h] <;> decide
  have hm2 : ¬ (args.mode ≠ "domains" ∧ args.mode ≠ "urls") := by
    rcases hm with h | h <;> simp [h]
  unfold main
  rw [hparse]
  dsimp only
  rw [if_neg hd, if_neg hm1, if_neg hm2]
  simp only [hk, hf]

theorem main_exhausted (argv : List String) (args : Args) (env : Environ)
    (net : Nat → Request → Outcome)
    (unmarshal : String → Except String VTResponse) (rangeOrder : List String → List String)
    (keys : List String)
    (hparse : parseFlags defaults argv = ⟨args, .parsed⟩)
    (hd : args.domain ≠ "")
    (hm : args.mode = "domains" ∨ args.mode = "urls")
    (hk : buildKeys args.apiKeyFlag env = some keys)
    (hf : (keyLoop net args.domain 0 keys).finish = .completed none) :
    main argv env net unmarshal rangeOrder
      = ⟨(keyLoop net args.domain 0 keys).stdout
            ++ [println "Error: All provided API keys have exceeded quota or failed."],
          (keyLoop net args.domain 0 keys).requests, .allKeysFailed⟩ := by
  have hm1 : args.mode ≠ "" := by rcases hm with h | h <;> rw [h] <;> decide
  have hm2 : ¬ (args.mode ≠ "domains" ∧ args.mode ≠ "urls") := by
    rcases hm with h | h <;> simp [h]
  unfold main
  rw [hparse]
  dsimp only
  rw [if_neg hd, if_neg hm1, if_neg hm2]
  simp only [hk, hf]

theorem main_decode_error (argv : List String) (args : Args) (env : Environ)
    (net : Nat → Request → Outcome)
    (unmarshal : String → Except String VTResponse) (rangeOrder : List String → List String)
    (keys : List String) (body err : String)
    (hparse : parseFlags defaults argv = ⟨args, .parsed⟩)
    (hd : args.domain ≠ "")
    (hm : args.mode = "domains" ∨ args.mode = "urls")
    (hk : buildKeys args.apiKeyFlag env = some keys)
    (hf : (keyLoop net args.domain 0 keys).finish = .completed (some body))
    (hu : unmarshal body = .error err) :
    main argv env net unmarshal rangeOrder
      = ⟨(keyLoop net args.domain 0 keys).stdout
            ++ ["Error unmarshalling JSON: " ++ err ++ "\n"],
          (keyLoop net args.domain 0 keys).requests, .decodeError⟩ := by
  have hm1 : args.mode ≠ "" := by rcases hm with h | h <;> rw [h] <;> decide
  have hm2 : ¬ (args.mode ≠ "domains" ∧ args.mode ≠ "urls") := by
    rcases hm with h | h <;> simp [h]
  unfold main
  rw [hparse]
  dsimp only
  rw [if_neg hd, if_neg hm1, if_neg hm2]
  simp only [hk, hf, hu]

theorem main_success (argv : List String) (args : Args) (env : Environ)
    (net : Nat → Request → Outcome)
    (unmarshal : String → Except String VTResponse) (rangeOrder : List String → List String)
    (keys : List String) (body : String) (vtResp : VTResponse)
    (hparse : parseFlags defaults argv = ⟨args, .parsed⟩)
    (hd : args.domain ≠ "")
    (hm : args.mode = "domains" ∨ args.mode = "urls")
    (hk : buildKeys args.apiKeyFlag env = some keys)
    (hf : (keyLoop net args.domain 0 keys).finish = .completed (some body))
    (hu : unmarshal body = .ok vtResp) :
    main argv env net unmarshal rangeOrder
      = ⟨(keyLoop net args.domain 0 keys).stdout
            ++ (printedLines rangeOrder args.mode vtResp).map println,
          (keyLoop net args.domain 0 keys).requests, .success⟩ := by
  have hm1 : args.mode ≠ "" := by rcases hm with h | h <;> rw [h] <;> decide
  have hm2 : ¬ (args.mode ≠ "domains" ∧ args.mode ≠ "urls") := by
    rcases hm with h | h <;> simp [h]
  unfold main
  rw [hparse]
  dsimp only
  rw [if_neg hd, if_neg hm1, if_neg hm2]
  simp only [hk, hf, hu]

theorem keyLoop_requests_take (net : Nat → Request → Outcome) (d : String)
    (keys : List String) :
    ∀ i : Nat, (keyLoop net d i keys).requests
      = (keys.take (keyLoop net d i keys).requests.length).map (requestFor d) := by
  induction keys with
  | nil => intro i; simp [keyLoop_nil]
  | cons key rest ih =>
    intro i
    cases hA : attempt key (net i ⟨key, d⟩) with
    | next log =>
      rw [keyLoop_cons_next net d i key rest log hA]
      simp only [List.length_cons, List.take_succ_cons, List.map_cons, List.cons.injEq,
        true_and]
      exact ih (i + 1)
    | done body =>
      rw [keyLoop_cons_done net d i key rest body hA]
      simp
    | fatal log =>
      rw [keyLoop_cons_fatal net d i key rest log hA]
      simp

theorem keyLoop_earlier_transient (net : Nat → Request → Outcome) (d : String)
    (keys : List String) :
    ∀ i j : Nat, j + 1 < (keyLoop net d i keys).requests.length →
      ∃ key, keys[j]? = some key ∧ Transient (net (i + j) ⟨key, d⟩) := by
  induction keys with
  | nil => intro i j h; simp [keyLoop_nil] at h
  | cons key rest ih =>
    intro i j h
    cases hA : attempt key (net i ⟨key, d⟩) with
    | next log =>
      rw [keyLoop_cons_next net d i key rest log hA] at h
      cases j with
      | zero => exact ⟨key, by simp, transient_of_attempt_next key _ log hA⟩
      | succ j =>
        have h2 : j + 1 < (keyLoop net d (i + 1) rest).requests.length := by
          simpa using h
        obtain ⟨k, hk, ht⟩ := ih (i + 1) j h2
        refine ⟨k, by simpa using hk, ?_⟩
        rwa [show i + (j + 1) = i + 1 + j by omega]
    | done body =>
      rw [keyLoop_cons_done net d i key rest body hA] at h
      simp at h
    | fatal log =>
      rw [keyLoop_cons_fatal net d i key rest log hA] at h
      simp at h

theorem keyLoop_stop_at_ok (net : Nat → Request → Outcome) (d : String)
    (keys : List String) :
    ∀ (i j : Nat) (key body : String), j < (keyLoop net d i keys).requests.length →
      keys[j]? = some key → net (i + j) ⟨key, d⟩ = .response 200 body →
      (keyLoop net d i keys).requests.length = j + 1
        ∧ (keyLoop net d i keys).finish = .completed (some body) := by
  induction keys with
  | nil => intro i j key body h; simp [keyLoop_nil] at h
  | cons k rest ih =>
    intro i j key body h hkey hnet
    cases j with
    | zero =>
      have hk : k = key := by simpa using hkey
      subst hk
      have hA : attempt k (net i ⟨k, d⟩) = .done body := by
        rw [show i = i + 0 from rfl, hnet, attempt_ok]
      rw [keyLoop_cons_done net d i k rest body hA]
      simp
    | succ j =>
      cases hA : attempt k (net i ⟨k, d⟩) with
      | next log =>
        rw [keyLoop_cons_next net d i k rest log hA] at h ⊢
        have h2 : j < (keyLoop net d (i + 1) rest).requests.length := by simpa using h
        have hnet2 : net (i + 1 + j) ⟨key, d⟩ = .response 200 body := by
          rwa [show i + 1 + j = i + (j + 1) by omega]
        obtain ⟨hl, hf⟩ := ih (i + 1) j key body h2 (by simpa using hkey) hnet2
        exact ⟨by simp [hl], hf⟩
      | done b =>
        rw [keyLoop_cons_done net d i k rest b hA] at h
        simp at h
      | fatal log =>
        rw [keyLoop_cons_fatal net d i k rest log hA] at h
        simp at h

/-- C1: the requests issued by the fallback loop are those of an initial segment of the
key list, in order; every attempted key but the last attempted one had a transient
outcome (transport failure, body-read failure, 204, or a non-200 body containing
`quota` in any letter case); after a key that returned 200 no request is issued; and
when the first key returns 200 there is exactly one request and its body is the result. -/
theorem keyLoop_order (net : Nat → Request → Outcome) (d : String) (keys : List String) :
    (keyLoop net d 0 keys).requests
        = (keys.take (keyLoop net d 0 keys).requests.length).map (requestFor d)
      ∧ (∀ j, j + 1 < (keyLoop net d 0 keys).requests.length →
          ∃ key, keys[j]? = some key ∧ Transient (net j ⟨key, d⟩))
      ∧ (∀ j key body, j < (keyLoop net d 0 keys).requests.length →
          keys[j]? = some key → net j ⟨key, d⟩ = .response 200 body →
          (keyLoop net d 0 keys).requests.length = j + 1)
      ∧ (∀ key rest body, keys = key :: rest → net 0 ⟨key, d⟩ = .response 200 body →
          (keyLoop net d 0 keys).requests = [requestFor d key]
            ∧ (keyLoop net d 0 keys).finish = .completed (some body)) := by
  refine ⟨keyLoop_requests_take net d keys 0, ?_, ?_, ?_⟩
  · intro j h
    simpa using keyLoop_earlier_transient net d keys 0 j h
  · intro j key body h hkey hnet
    exact (keyLoop_stop_at_ok net d keys 0 j key body h hkey (by simpa using hnet)).1
  · intro key rest body hkeys hnet
    subst hkeys
    rw [keyLoop_cons_done net d 0 key rest body (by rw [hnet, attempt_ok])]
    exact ⟨rfl, rfl⟩

/-- Example for C1: three keys; the first request fails in transport, the second is
answered 200, so two requests are issued and the third key is never used. -/
theorem keyLoop_order_witness :
    (keyLoop (fun j _ => if j = 0 then .transportError "timeout" else .response 200 "ok")
        "example.com" 0 ["k1", "k2", "k3"]).requests
      = [⟨"k1", "example.com"⟩, ⟨"k2", "example.com"⟩] := by
  have h := (keyLoop_order
    (fun j _ => if j = 0 then .transportError "timeout" else .response 200 "ok")
    "example.com" ["k1", "k2", "k3"]).1
  have hl : (keyLoop
      (fun j _ => if j = 0 then .transportError "timeout" else .response 200 "ok")
      "example.com" 0 ["k1", "k2", "k3"]).requests.length = 2 := by decide
  rw [hl] at h
  exact h

/-- After keys with transient outcomes, a key answered with status 200 ends the loop with
its body as the result. -/
theorem keyLoop_reach_ok (net : Nat → Request → Outcome) (d : String)
    (pre post : List String) (key body : String)
    (hpre : ∀ j k, pre[j]? = some k → Transient (net j ⟨k, d⟩))
    (hnet : net pre.length ⟨key, d⟩ = .response 200 body) :
    keyLoop net d 0 (pre ++ key :: post)
      = ⟨skipLogs net d 0 pre, (pre ++ [key]).map (requestFor d), .completed (some body)⟩ := by
  rw [keyLoop_skip net d pre (key :: post) 0 (by simpa using hpre)]
  have hA : attempt key (net (0 + pre.length) ⟨key, d⟩) = .done body := by
    rw [Nat.zero_add, hnet, attempt_ok]
  rw [keyLoop_cons_done net d (0 + pre.length) key post body hA]
  simp

/-- After keys with transient outcomes, a key answered with an unexpected status ends the
loop with `os.Exit(1)`. -/
theorem keyLoop_reach_fatal (net : Nat → Request → Outcome) (d : String)
    (pre post : List String) (key : String) (statusCode : Int) (body : String)
    (hpre : ∀ j k, pre[j]? = some k → Transient (net j ⟨k, d⟩))
    (hnet : net pre.length ⟨key, d⟩ = .response statusCode body)
    (h200 : statusCode ≠ 200) (hq : ¬ (statusCode = 204 ∨ QuotaAnyCase body)) :
    keyLoop net d 0 (pre ++ key :: post)
      = ⟨skipLogs net d 0 pre ++ [fatalLog key statusCode body],
          (pre ++ [key]).map (requestFor d), .exited⟩ := by
  rw [keyLoop_skip net d pre (key :: post) 0 (by simpa using hpre)]
  have hA : attempt key (net (0 + pre.length) ⟨key, d⟩)
      = .fatal (fatalLog key statusCode body) := by
    rw [Nat.zero_add, hnet, attempt_fatal key statusCode body h200 hq]
  rw [keyLoop_cons_fatal net d (0 + pre.length) key post _ hA]
  simp

/-- When every key has a transient outcome the loop attempts all of them and leaves
`resultBody` nil. -/
theorem keyLoop_all_transient (net : Nat → Request → Outcome) (d : String)
    (keys : List String) (h : ∀ j k, keys[j]? = some k → Transient (net j ⟨k, d⟩)) :
    keyLoop net d 0 keys
      = ⟨skipLogs net d 0 keys, keys.map (requestFor d), .completed none⟩ := by
  have h2 := keyLoop_skip net d keys [] 0 (by simpa using h)
  rw [List.append_nil] at h2
  rw [h2, keyLoop_nil]
  simp

theorem keyLoop_none_length (net : Nat → Request → Outcome) (d : String)
    (keys : List String) :
    ∀ i : Nat, (keyLoop net d i keys).finish = .completed none →
      (keyLoop net d i keys).requests.length = keys.length := by
  induction keys with
  | nil => intro i _; simp [keyLoop_nil]
  | cons key rest ih =>
    intro i h
    cases hA : attempt key (net i ⟨key, d⟩) with
    | next log =>
      rw [keyLoop_cons_next net d i key rest log hA] at h ⊢
      simp only [List.length_cons, Nat.add_right_cancel_iff]
      exact ih (i + 1) h
    | done body =>
      rw [keyLoop_cons_done net d i key rest body hA] at h
      cases h
    | fatal log =>
      rw [keyLoop_cons_fatal net d i key rest log hA] at h
      cases h

theorem main_requests (argv : List String) (args : Args) (env : Environ)
    (net : Nat → Request → Outcome)
    (unmarshal : String → Except String VTResponse) (rangeOrder : List String → List String)
    (keys : List String)
    (hparse : parseFlags defaults argv = ⟨args, .parsed⟩)
    (hd : args.domain ≠ "")
    (hm : args.mode = "domains" ∨ args.mode = "urls")
    (hk : buildKeys args.apiKeyFlag env = some keys) :
    (main argv env net unmarshal rangeOrder).requests
      = (keyLoop net args.domain 0 keys).requests := by
  cases hf : (keyLoop net args.domain 0 keys).finish with
  | exited => rw [main_exited argv args env net unmarshal rangeOrder keys hparse hd hm hk hf]
  | completed rb =>
    cases rb with
    | none => rw [main_exhausted argv args env net unmarshal rangeOrder keys hparse hd hm hk hf]
    | some body =>
      cases hu : unmarshal body with
      | error err =>
        rw [main_decode_error argv args env net unmarshal rangeOrder keys body err
          hparse hd hm hk hf hu]
      | ok vtResp =>
        rw [main_success argv args env net unmarshal rangeOrder keys body vtResp
          hparse hd hm hk hf hu]

theorem finish_of_allKeysFailed (argv : List String) (args : Args) (env : Environ)
    (net : Nat → Request → Outcome) (unmarshal : String → Except String VTResponse)
    (rangeOrder : List String → List String) (keys : List String) (hparse : parseFlags defaults argv = ⟨args, .parsed⟩)
    (hd : args.domain ≠ "")
    (hm : args.mode = "domains" ∨ args.mode = "urls")
    (hk : buildKeys args.apiKeyFlag env = some keys)
    (he : (main argv env net unmarshal rangeOrder).exit = .allKeysFailed) :
    (keyLoop net args.domain 0 keys).finish = .completed none := by
  cases hf : (keyLoop net args.domain 0 keys).finish with
  | exited =>
    rw [main_exited argv args env net unmarshal rangeOrder keys hparse hd hm hk hf] at he
    cases he
  | completed rb =>
    cases rb with
    | none => rfl
    | some body =>
      cases hu : unmarshal body with
      | error err =>
        rw [main_decode_error argv args env net unmarshal rangeOrder keys body err
          hparse hd hm hk hf hu]
          at he
        cases he
      | ok vtResp =>
        rw [main_success argv args env net unmarshal rangeOrder keys body vtResp
          hparse hd hm hk hf hu]
          at he
        cases he

/-! ## Runs of the whole program -/

/-- C7: with a valid configuration, when the attempt of every key ends in a transient key
error, every key is attempted once, in order, and the run ends with exit status 1 after
the diagnostics of the keys and the all-keys-failed message, with no result line; and
when some key of the list returns status 200, with any body, the run does not end in the
all-keys-failed exit. -/
theorem all_keys_failed (argv : List String) (args : Args) (env : Environ)
    (net : Nat → Request → Outcome)
    (unmarshal : String → Except String VTResponse) (rangeOrder : List String → List String)
    (keys : List String)
    (hparse : parseFlags defaults argv = ⟨args, .parsed⟩)
    (hd : args.domain ≠ "")
    (hm : args.mode = "domains" ∨ args.mode = "urls")
    (hk : buildKeys args.apiKeyFlag env = some keys) :
    ((∀ j key, keys[j]? = some key → Transient (net j ⟨key, args.domain⟩)) →
        (main argv env net unmarshal rangeOrder).requests = keys.map (requestFor args.domain)
          ∧ (main argv env net unmarshal rangeOrder).exit = .allKeysFailed
          ∧ (main argv env net unmarshal rangeOrder).exitCode = 1
          ∧ (main argv env net unmarshal rangeOrder).stdout
              = skipLogs net args.domain 0 keys
                ++ [println "Error: All provided API keys have exceeded quota or failed."])
      ∧ ((∃ j key body, keys[j]? = some key
            ∧ net j ⟨key, args.domain⟩ = .response 200 body) →
          (main argv env net unmarshal rangeOrder).exit ≠ .allKeysFailed) := by
  constructor
  · intro h
    have hl := keyLoop_all_transient net args.domain keys h
    have hf : (keyLoop net args.domain 0 keys).finish = .completed none := by rw [hl]
    rw [main_exhausted argv args env net unmarshal rangeOrder keys hparse hd hm hk hf, hl]
    exact ⟨rfl, rfl, rfl, rfl⟩
  · rintro ⟨j, key, body, hkey, hnet⟩ he
    have hf := finish_of_allKeysFailed argv args env net unmarshal rangeOrder keys
      hparse hd hm hk he
    have hlen := keyLoop_none_length net args.domain keys 0 hf
    have hj : j < keys.length := by
      by_contra hcon
      rw [List.getElem?_eq_none (by omega)] at hkey
      cases hkey
    have h2 := (keyLoop_stop_at_ok net args.domain keys 0 j key body (by omega) hkey
      (by simpa using hnet)).2
    rw [hf] at h2
    cases h2

/-- Witness for C7: two keys, the first over quota (body in capitals), the second
answered 204. -/
theorem all_keys_failed_witness :
    (main ["-d", "example.com", "-k", "k1", "-m", "urls"] ⟨"", "k2", ""⟩
        (fun j _ => if j = 0 then .response 403 "QUOTA exceeded" else .response 204 "")
        (fun _ => .ok ⟨[], []⟩) id).exit ≠ .success
      ∧ (main ["-d", "example.com", "-k", "k1", "-m", "urls"] ⟨"", "k2", ""⟩
        (fun j _ => if j = 0 then .response 403 "QUOTA exceeded" else .response 204 "")
        (fun _ => .ok ⟨[], []⟩) id).exitCode = 1 := by
  have h := (all_keys_failed ["-d", "example.com", "-k", "k1", "-m", "urls"]
    ⟨"example.com", "k1", "urls"⟩ ⟨"", "k2", ""⟩
    (fun j _ => if j = 0 then .response 403 "QUOTA exceeded" else .response 204 "")
    (fun _ => .ok ⟨[], []⟩) id ["k1", "k2"] (by decide) (by decide) (Or.inr rfl) (by decide)).1
    (by
      intro j key hj
      match j with
      | 0 =>
        exact Or.inr ⟨by decide, (contains_quota_iff "QUOTA exceeded").mp (by decide)⟩
      | 1 => exact Or.inl rfl
      | j + 2 => simp at hj)
  exact ⟨by rw [h.2.1]; decide, h.2.2.1⟩

theorem keyLoop_head_request (net : Nat → Request → Outcome) (d : String) (i : Nat)
    (key : String) (rest : List String) :
    (keyLoop net d i (key :: rest)).requests[0]? = some (requestFor d key) := by
  cases hA : attempt key (net i ⟨key, d⟩) with
  | next log => rw [keyLoop_cons_next net d i key rest log hA]; simp
  | done body => rw [keyLoop_cons_done net d i key rest body hA]; simp
  | fatal log => rw [keyLoop_cons_fatal net d i key rest log hA]; simp

theorem uniqueResults_eq_nil (mode : String) (vtResp : VTResponse)
    (hdom : mode = "domains" → vtResp.Subdomains = [])
    (hurl : mode = "urls" → ∀ e ∈ vtResp.UndetectedUrls, ∀ s, ¬ FirstString e s) :
    uniqueResults mode vtResp = [] := by
  unfold uniqueResults
  split
  · rename_i h
    rw [List.eq_nil_iff_forall_not_mem]
    intro s hs
    rw [mem_extractUrls] at hs
    rcases hs with hs | ⟨e, he, hf⟩
    · simp at hs
    · exact hurl h e he s hf
  · split
    · rename_i h
      rw [hdom h]
      rfl
    · rfl

/-- C2: for a response with a status other than 200, received for a key that the loop
reaches, the iteration ends in `continue` exactly when the status is 204 or the body
contains `quota` in any letter case.  In that case the requests of the run are those of
the keys up to this one followed by those the loop issues for the remaining keys: the
next key, if there is one, is requested, and if there is none the run ends in the
all-keys-failed exit.  Otherwise the run ends at once with exit status 1 at the
unexpected-status exit and its requests are exactly those of the keys up to this one. -/
theorem non200_response (argv : List String) (args : Args) (env : Environ)
    (net : Nat → Request → Outcome)
    (unmarshal : String → Except String VTResponse) (rangeOrder : List String → List String)
    (pre post : List String) (key : String) (statusCode : Int) (body : String)
    (hparse : parseFlags defaults argv = ⟨args, .parsed⟩)
    (hd : args.domain ≠ "") (hm : args.mode = "domains" ∨ args.mode = "urls")
    (hk : buildKeys args.apiKeyFlag env = some (pre ++ key :: post))
    (hpre : ∀ j k, pre[j]? = some k → Transient (net j ⟨k, args.domain⟩))
    (hnet : net pre.length ⟨key, args.domain⟩ = .response statusCode body)
    (h200 : statusCode ≠ 200) :
    ((∃ log, attempt key (net pre.length ⟨key, args.domain⟩) = .next log)
        ↔ (statusCode = 204 ∨ QuotaAnyCase body))
      ∧ ((statusCode = 204 ∨ QuotaAnyCase body) →
          (main argv env net unmarshal rangeOrder).requests
              = (pre ++ [key]).map (requestFor args.domain)
                ++ (keyLoop net args.domain (pre.length + 1) post).requests
            ∧ (post = [] → (main argv env net unmarshal rangeOrder).exit = .allKeysFailed)
            ∧ (∀ next rest, post = next :: rest →
                (main argv env net unmarshal rangeOrder).requests[pre.length + 1]?
                  = some (requestFor args.domain next)))
      ∧ (¬ (statusCode = 204 ∨ QuotaAnyCase body) →
          (main argv env net unmarshal rangeOrder).exitCode = 1
            ∧ (main argv env net unmarshal rangeOrder).exit = .unexpectedStatus
            ∧ (main argv env net unmarshal rangeOrder).requests
                = (pre ++ [key]).map (requestFor args.domain)
            ∧ (main argv env net unmarshal rangeOrder).stdout
                = skipLogs net args.domain 0 pre ++ [fatalLog key statusCode body]) := by
  have hreq := main_requests argv args env net unmarshal rangeOrder (pre ++ key :: post)
    hparse hd hm hk
  have htr : (statusCode = 204 ∨ QuotaAnyCase body) →
      Transient (net pre.length ⟨key, args.domain⟩) := by
    intro hq
    rw [hnet]
    rcases hq with hq | hq
    · exact Or.inl hq
    · exact Or.inr ⟨h200, hq⟩
  have hall : (statusCode = 204 ∨ QuotaAnyCase body) →
      ∀ j k, (pre ++ [key])[j]? = some k → Transient (net j ⟨k, args.domain⟩) := by
    intro hq j k hj
    by_cases hjl : j < pre.length
    · rw [List.getElem?_append_left hjl] at hj
      exact hpre j k hj
    · by_cases hje : j = pre.length
      · subst hje
        have : key = k := by simpa using hj
        subst this
        exact htr hq
      · rw [List.getElem?_eq_none (by simp; omega)] at hj
        cases hj
  have hcont : (statusCode = 204 ∨ QuotaAnyCase body) →
      (main argv env net unmarshal rangeOrder).requests
        = (pre ++ [key]).map (requestFor args.domain)
          ++ (keyLoop net args.domain (pre.length + 1) post).requests := by
    intro hq
    have h2 := keyLoop_skip net args.domain (pre ++ [key]) post 0
      (by simpa using hall hq)
    rw [List.append_assoc, List.singleton_append] at h2
    rw [hreq, h2]
    simp
  refine ⟨?_, ?_, ?_⟩
  · constructor
    · rintro ⟨log, hlog⟩
      have ht := transient_of_attempt_next key _ log hlog
      rw [hnet] at ht
      rcases ht with ht | ht
      · exact Or.inl ht
      · exact Or.inr ht.2
    · intro hq
      exact ⟨_, attempt_of_transient key _ (htr hq)⟩
  · intro hq
    refine ⟨hcont hq, ?_, ?_⟩
    · intro hpost
      subst hpost
      have hl := keyLoop_all_transient net args.domain (pre ++ [key]) (hall hq)
      have hf : (keyLoop net args.domain 0 (pre ++ [key])).finish = .completed none := by
        rw [hl]
      rw [main_exhausted argv args env net unmarshal rangeOrder (pre ++ [key]) hparse hd hm hk hf]
    · intro next rest hpost
      subst hpost
      rw [hcont hq]
      have h0 := keyLoop_head_request net args.domain (pre.length + 1) next rest
      rw [List.getElem?_append_right (by simp)]
      simpa using h0
  · intro hq
    have hl := keyLoop_reach_fatal net args.domain pre post key statusCode body hpre hnet
      h200 hq
    have hf : (keyLoop net args.domain 0 (pre ++ key :: post)).finish = .exited := by rw [hl]
    rw [main_exited argv args env net unmarshal rangeOrder _ hparse hd hm hk hf, hl]
    exact ⟨rfl, rfl, rfl, rfl⟩

/-- Witness for C2: the first key fails in transport, the second is answered 403 without
a quota marker while a third key is still untried. -/
theorem non200_response_witness :
    (main ["-d", "example.com", "-k", "k1", "-m", "domains"] ⟨"", "k2", "k3"⟩
        (fun j _ => if j = 0 then .transportError "timeout" else .response 403 "Forbidden")
        (fun _ => .ok ⟨[], []⟩) id).exitCode = 1
      ∧ (main ["-d", "example.com", "-k", "k1", "-m", "domains"] ⟨"", "k2", "k3"⟩
        (fun j _ => if j = 0 then .transportError "timeout" else .response 403 "Forbidden")
        (fun _ => .ok ⟨[], []⟩) id).requests
          = [⟨"k1", "example.com"⟩, ⟨"k2", "example.com"⟩] := by
  have h := (non200_response ["-d", "example.com", "-k", "k1", "-m", "domains"]
    ⟨"example.com", "k1", "domains"⟩ ⟨"", "k2", "k3"⟩
    (fun j _ => if j = 0 then .transportError "timeout" else .response 403 "Forbidden")
    (fun _ => .ok ⟨[], []⟩) id ["k1"] ["k3"] "k2" 403 "Forbidden" (by decide) (by decide) (Or.inl rfl)
    (by decide)
    (by
      intro j k hj
      match j with
      | 0 => trivial
      | j + 1 => simp at hj)
    rfl (by decide)).2.2
    (by
      rintro (h | h)
      · exact absurd h (by decide)
      · exact absurd ((contains_quota_iff "Forbidden").mpr h) (by decide))
  exact ⟨h.1, h.2.2.1⟩

/-- C9: with a valid configuration, when a key reached by the loop returns status 200 and
its body fails to decode, the run ends with exit status 1 at the decode error, the output
holds no result line (only the diagnostics of the earlier keys and the decode message),
and no request is issued for a later key. -/
theorem decode_failure (argv : List String) (args : Args) (env : Environ)
    (net : Nat → Request → Outcome)
    (unmarshal : String → Except String VTResponse) (rangeOrder : List String → List String)
    (pre post : List String) (key body err : String)
    (hparse : parseFlags defaults argv = ⟨args, .parsed⟩)
    (hd : args.domain ≠ "") (hm : args.mode = "domains" ∨ args.mode = "urls")
    (hk : buildKeys args.apiKeyFlag env = some (pre ++ key :: post))
    (hpre : ∀ j k, pre[j]? = some k → Transient (net j ⟨k, args.domain⟩))
    (hnet : net pre.length ⟨key, args.domain⟩ = .response 200 body)
    (hu : unmarshal body = .error err) :
    (main argv env net unmarshal rangeOrder).exitCode = 1
      ∧ (main argv env net unmarshal rangeOrder).exit = .decodeError
      ∧ (main argv env net unmarshal rangeOrder).stdout
          = skipLogs net args.domain 0 pre ++ ["Error unmarshalling JSON: " ++ err ++ "\n"]
      ∧ (main argv env net unmarshal rangeOrder).requests
          = (pre ++ [key]).map (requestFor args.domain) := by
  have hl := keyLoop_reach_ok net args.domain pre post key body hpre hnet
  have hf : (keyLoop net args.domain 0 (pre ++ key :: post)).finish
      = .completed (some body) := by rw [hl]
  rw [main_decode_error argv args env net unmarshal rangeOrder _ body err hparse hd hm hk hf hu, hl]
  exact ⟨rfl, rfl, rfl, rfl⟩

/-- Witness for C9: the first key returns 200 with an empty body, which does not decode;
the second key is not used. -/
theorem decode_failure_witness :
    (main ["-d", "example.com", "-m", "urls"] ⟨"k1", "k2", ""⟩ (fun _ _ => .response 200 "")
        (fun _ => .error "unexpected end of JSON input") id).exitCode = 1
      ∧ (main ["-d", "example.com", "-m", "urls"] ⟨"k1", "k2", ""⟩ (fun _ _ => .response 200 "")
        (fun _ => .error "unexpected end of JSON input") id).requests
          = [⟨"k1", "example.com"⟩] := by
  have h := decode_failure ["-d", "example.com", "-m", "urls"]
    ⟨"example.com", "", "urls"⟩ ⟨"k1", "k2", ""⟩
    (fun _ _ => .response 200 "") (fun _ => .error "unexpected end of JSON input") id
    [] ["k2"] "k1" "" "unexpected end of JSON input" (by decide) (by decide) (Or.inr rfl) (by decide)
    (by intro j k hj; simp at hj) rfl rfl
  exact ⟨h.1, h.2.2.2⟩

/-- C10: with a valid configuration, when a key reached by the loop returns status 200
and its body decodes, the run ends with exit status 0; when moreover the field selected
by the mode yields nothing (no subdomain in mode `domains`; in mode `urls` no entry whose
first element is a string), the result set is empty and no result line is printed. -/
theorem success_exit_zero (argv : List String) (args : Args) (env : Environ)
    (net : Nat → Request → Outcome)
    (unmarshal : String → Except String VTResponse) (rangeOrder : List String → List String)
    (hrange : ∀ m : List String, m.Nodup → (rangeOrder m).Perm m)
    (pre post : List String) (key body : String) (vtResp : VTResponse)
    (hparse : parseFlags defaults argv = ⟨args, .parsed⟩)
    (hd : args.domain ≠ "") (hm : args.mode = "domains" ∨ args.mode = "urls")
    (hk : buildKeys args.apiKeyFlag env = some (pre ++ key :: post))
    (hpre : ∀ j k, pre[j]? = some k → Transient (net j ⟨k, args.domain⟩))
    (hnet : net pre.length ⟨key, args.domain⟩ = .response 200 body)
    (hu : unmarshal body = .ok vtResp) :
    (main argv env net unmarshal rangeOrder).exitCode = 0
      ∧ (main argv env net unmarshal rangeOrder).exit = .success
      ∧ ((args.mode = "domains" → vtResp.Subdomains = []) →
          (args.mode = "urls" → ∀ e ∈ vtResp.UndetectedUrls, ∀ s, ¬ FirstString e s) →
          uniqueResults args.mode vtResp = []
            ∧ printedLines rangeOrder args.mode vtResp = []
            ∧ (main argv env net unmarshal rangeOrder).stdout
                = skipLogs net args.domain 0 pre) := by
  have hl := keyLoop_reach_ok net args.domain pre post key body hpre hnet
  have hf : (keyLoop net args.domain 0 (pre ++ key :: post)).finish
      = .completed (some body) := by rw [hl]
  rw [main_success argv args env net unmarshal rangeOrder _ body vtResp hparse hd hm hk hf hu, hl]
  refine ⟨rfl, rfl, ?_⟩
  intro hdom hurl
  have he := uniqueResults_eq_nil args.mode vtResp hdom hurl
  have hp : printedLines rangeOrder args.mode vtResp = [] := by
    unfold printedLines
    rw [he]
    exact List.perm_nil.mp (hrange [] List.nodup_nil)
  refine ⟨he, hp, ?_⟩
  simp [hp]

/-- Witness for C10: mode `urls`, the response has subdomains but its URL entries are an
empty entry and an entry starting with a number; exit status 0 and nothing printed. -/
theorem success_exit_zero_witness :
    (main ["-d", "example.com", "-k", "k1", "-m", "urls"] ⟨"", "", ""⟩ (fun _ _ => .response 200 "body")
        (fun _ => .ok ⟨["a.example.com"], [[], [.number 42]]⟩) List.reverse).exitCode = 0
      ∧ (main ["-d", "example.com", "-k", "k1", "-m", "urls"] ⟨"", "", ""⟩ (fun _ _ => .response 200 "body")
        (fun _ => .ok ⟨["a.example.com"], [[], [.number 42]]⟩) List.reverse).stdout = [] := by
  have h := success_exit_zero ["-d", "example.com", "-k", "k1", "-m", "urls"]
    ⟨"example.com", "k1", "urls"⟩ ⟨"", "", ""⟩
    (fun _ _ => .response 200 "body")
    (fun _ => .ok ⟨["a.example.com"], [[], [.number 42]]⟩) List.reverse
    (fun m _ => List.reverse_perm m) [] [] "k1" "body"
    ⟨["a.example.com"], [[], [.number 42]]⟩ (by decide) (by decide) (Or.inr rfl) (by decide)
    (by intro j k hj; simp at hj) rfl rfl
  refine ⟨h.1, ?_⟩
  have h3 := (h.2.2 (by intro hmode; exact absurd hmode (by decide))
    (by
      intro _ e he s hs
      obtain ⟨rest, hrest⟩ := hs
      simp only [List.mem_cons, List.mem_singleton, List.not_mem_nil, or_false] at he
      rcases he with he | he
      · rw [he] at hrest; cases hrest
      · rw [he] at hrest; cases hrest)).2.2
  exact h3

/-- C8, as the program behaves: with a valid configuration, when a key returns status 200
after one or more earlier keys that ended in a transient key error, and the body decodes,
standard output holds first one diagnostic per earlier key, in key order (so at least
one), and then the members of the result set, one per line and without duplicates; the
run ends with exit status 0 and the requests are those of the earlier keys and of the
successful key. -/
theorem fallback_success_output (argv : List String) (args : Args) (env : Environ)
    (net : Nat → Request → Outcome) (unmarshal : String → Except String VTResponse)
    (rangeOrder : List String → List String)
    (hrange : ∀ m : List String, m.Nodup → (rangeOrder m).Perm m)
    (pre post : List String) (key body : String) (vtResp : VTResponse)
    (hparse : parseFlags defaults argv = ⟨args, .parsed⟩)
    (hd : args.domain ≠ "") (hm : args.mode = "domains" ∨ args.mode = "urls")
    (hk : buildKeys args.apiKeyFlag env = some (pre ++ key :: post))
    (hne : pre ≠ [])
    (hpre : ∀ j k, pre[j]? = some k → Transient (net j ⟨k, args.domain⟩))
    (hnet : net pre.length ⟨key, args.domain⟩ = .response 200 body)
    (hu : unmarshal body = .ok vtResp) :
    (main argv env net unmarshal rangeOrder).stdout
        = skipLogs net args.domain 0 pre
          ++ (printedLines rangeOrder args.mode vtResp).map println
      ∧ (main argv env net unmarshal rangeOrder).text
        = String.join (skipLogs net args.domain 0 pre
          ++ (printedLines rangeOrder args.mode vtResp).map println)
      ∧ (skipLogs net args.domain 0 pre).length = pre.length
      ∧ skipLogs net args.domain 0 pre ≠ []
      ∧ (printedLines rangeOrder args.mode vtResp).Nodup
      ∧ (∀ s, s ∈ printedLines rangeOrder args.mode vtResp
          ↔ s ∈ uniqueResults args.mode vtResp)
      ∧ (main argv env net unmarshal rangeOrder).exit = .success
      ∧ (main argv env net unmarshal rangeOrder).requests
          = (pre ++ [key]).map (requestFor args.domain) := by
  have hl := keyLoop_reach_ok net args.domain pre post key body hpre hnet
  have hf : (keyLoop net args.domain 0 (pre ++ key :: post)).finish
      = .completed (some body) := by rw [hl]
  have hnd := uniqueResults_nodup args.mode vtResp
  have hp := hrange _ hnd
  have hlen : ∀ (l : List String) (i : Nat), (skipLogs net args.domain i l).length = l.length := by
    intro l
    induction l with
    | nil => intro i; rfl
    | cons a as ih => intro i; simp [skipLogs, ih]
  rw [main_success argv args env net unmarshal rangeOrder _ body vtResp hparse hd hm hk hf hu, hl]
  refine ⟨rfl, rfl, hlen pre 0, ?_, ?_, ?_, rfl, rfl⟩
  · intro hnil
    have h0 := hlen pre 0
    rw [hnil] at h0
    exact hne (List.length_eq_zero.mp h0.symm)
  · exact hp.nodup_iff.mpr hnd
  · intro s
    exact hp.mem_iff

/-- Example for C8: the first key is answered 204, the second 200. -/
theorem fallback_success_output_witness :
    (main ["-d", "example.com", "-k", "k1", "-m", "domains"] ⟨"", "k2", ""⟩
        (fun j _ => if j = 0 then .response 204 "" else .response 200 "body")
        (fun _ => .ok ⟨["a.example.com", "a.example.com"], []⟩) id).stdout
      = ["Quota exceeded for key k1. Trying next key if available...\n", "a.example.com\n"] := by
  have h := (fallback_success_output ["-d", "example.com", "-k", "k1", "-m", "domains"]
    ⟨"example.com", "k1", "domains"⟩ ⟨"", "k2", ""⟩
    (fun j _ => if j = 0 then .response 204 "" else .response 200 "body")
    (fun _ => .ok ⟨["a.example.com", "a.example.com"], []⟩) id
    (fun m _ => List.Perm.refl m) ["k1"] [] "k2" "body"
    ⟨["a.example.com", "a.example.com"], []⟩ (by decide) (by decide) (Or.inl rfl) (by decide)
    (by decide)
    (by
      intro j k hj
      match j with
      | 0 => exact Or.inl rfl
      | j + 1 => simp at hj)
    rfl rfl).1
  rw [h]
  decide

/-- Counterexample to C8 as stated: the first key fails in transport, the second returns
200 and its body decodes to one subdomain; the run succeeds, yet standard output is not
the list of result lines, because the diagnostic of the first key precedes it. -/
theorem transient_error_on_stdout :
    Transient (Outcome.transportError "timeout")
      ∧ (main ["-d", "example.com", "-k", "k1", "-m", "domains"] ⟨"", "k2", ""⟩
          (fun j _ => if j = 0 then .transportError "timeout" else .response 200 "body")
          (fun _ => .ok ⟨["a.example.com"], []⟩) id).exit = .success
      ∧ (main ["-d", "example.com", "-k", "k1", "-m", "domains"] ⟨"", "k2", ""⟩
          (fun j _ => if j = 0 then .transportError "timeout" else .response 200 "body")
          (fun _ => .ok ⟨["a.example.com"], []⟩) id).requests
            = [⟨"k1", "example.com"⟩, ⟨"k2", "example.com"⟩]
      ∧ printedLines id "domains" ⟨["a.example.com"], []⟩ = ["a.example.com"]
      ∧ (main ["-d", "example.com", "-k", "k1", "-m", "domains"] ⟨"", "k2", ""⟩
          (fun j _ => if j = 0 then .transportError "timeout" else .response 200 "body")
          (fun _ => .ok ⟨["a.example.com"], []⟩) id).text
            = "Error making request with key k1: timeout\na.example.com\n"
      ∧ (main ["-d", "example.com", "-k", "k1", "-m", "domains"] ⟨"", "k2", ""⟩
          (fun j _ => if j = 0 then .transportError "timeout" else .response 200 "body")
          (fun _ => .ok ⟨["a.example.com"], []⟩) id).text
            ≠ String.join ((printedLines id "domains" ⟨["a.example.com"], []⟩).map println) := by
  refine ⟨trivial, ?_, ?_, ?_, ?_, ?_⟩ <;> decide

end VTScan
